import Mathlib

/-!
Verification of the mesh-voxelization kernel `voxelize_mesh` from
`src/voxelize.py` of the brain_model repository.

The kernel observes its input `pyvista.PolyData` mesh through exactly two
interfaces: its axis-aligned bounding box (`mesh.bounds`) and the external
point-in-mesh classifier (`select_enclosed_points`, VTK ray casting).  The
embedding therefore models the input surface as its six bound scalars plus a
classifier function.  Coordinates are exact rationals standing for the
double-precision values of the source; all structural claims (counts, index
offsets, orientation, grid layout) are independent of rounding.
-/

/-- Point in 3-space, one row of a numpy `(n, 3)` float array. -/
structure Vec3 where
  x : ℚ
  y : ℚ
  z : ℚ
deriving DecidableEq, Repr

/-- Input surface mesh, abstracted by the two observations `voxelize_mesh`
makes of it: the bounding box `mesh.bounds = (xmin, xmax, ymin, ymax, zmin,
zmax)` and the classifier `p ↦ select_enclosed_points` mask value at `p`. -/
structure Surface where
  xmin : ℚ
  xmax : ℚ
  ymin : ℚ
  ymax : ℚ
  zmin : ℚ
  zmax : ℚ
  encloses : Vec3 → Bool

/-- Output triangulated mesh: the points array and the triangle index
triples carried by the flat `[3, i, j, k, 3, i, j, k, ...]` faces buffer. -/
structure PolyData where
  points : List Vec3
  faces : List (ℕ × ℕ × ℕ)
deriving DecidableEq, Repr

/-- The 8 vertices of the unit cube, `_CUBE_VERTICES` in the source, in
source order: bottom `(0,1,2,3)` then top `(4,5,6,7)`. -/
def CUBE_VERTICES : List Vec3 :=
  [⟨0, 0, 0⟩, ⟨1, 0, 0⟩, ⟨1, 1, 0⟩, ⟨0, 1, 0⟩,
   ⟨0, 0, 1⟩, ⟨1, 0, 1⟩, ⟨1, 1, 1⟩, ⟨0, 1, 1⟩]

/-- The 12 template triangles of one cube, `_CUBE_FACES` in the source. -/
def CUBE_FACES : List (ℕ × ℕ × ℕ) :=
  [(0, 1, 2), (0, 2, 3),
   (4, 5, 6), (4, 6, 7),
   (0, 5, 1), (0, 4, 5),
   (3, 2, 6), (3, 6, 7),
   (0, 3, 7), (0, 7, 4),
   (1, 5, 6), (1, 6, 2)]

/-- numpy `arange(start, stop, step)` over exact rationals: the values
`start + i * step` for `0 ≤ i < ⌈(stop - start) / step⌉` (empty when the
ceiling is non-positive). -/
def arange (start stop step : ℚ) : List ℚ :=
  (List.range (⌈(stop - start) / step⌉).toNat).map (fun i : ℕ => start + (i : ℚ) * step)

/-- One axis of the candidate grid: `np.arange(lo, hi + density * 0.5, density)`
(lines 80-82 of `voxelize.py`). -/
def sampleAxis (lo hi density : ℚ) : List ℚ :=
  arange lo (hi + density * (1 / 2)) density

/-- The flattened `meshgrid(x, y, z, indexing="ij")` points in C (row-major)
order: `x` outermost, then `y`, then `z`. -/
def gridPoints (x y z : List ℚ) : List Vec3 :=
  x.flatMap (fun xi => y.flatMap (fun yj => z.map (fun zk => ⟨xi, yj, zk⟩)))

/-- The candidate grid of `voxelize_mesh` for a given surface and density. -/
def gridPointsOf (mesh : Surface) (density : ℚ) : List Vec3 :=
  gridPoints (sampleAxis mesh.xmin mesh.xmax density)
    (sampleAxis mesh.ymin mesh.ymax density)
    (sampleAxis mesh.zmin mesh.zmax density)

/-- The Interior Point Set: `grid_points[mask]` where `mask` is the
classifier output, in grid order. -/
def interiorPoints (mesh : Surface) (density : ℚ) : List Vec3 :=
  (gridPointsOf mesh density).filter mesh.encloses

/-- The template cube `(_CUBE_VERTICES - 0.5) * density`: center at the
origin, half-extent `density / 2`. -/
def templateVerts (density : ℚ) : List Vec3 :=
  CUBE_VERTICES.map (fun v =>
    ⟨(v.x - 1 / 2) * density, (v.y - 1 / 2) * density, (v.z - 1 / 2) * density⟩)

/-- The merged points buffer `(template_verts[None,:,:] + interior[:,None,:])
.reshape(-1, 3)`: voxel-major, 8 consecutive vertices per interior point. -/
def allPoints (interior : List Vec3) (density : ℚ) : List Vec3 :=
  interior.flatMap (fun p =>
    (templateVerts density).map (fun v => ⟨v.x + p.x, v.y + p.y, v.z + p.z⟩))

/-- The merged faces buffer `_CUBE_FACES[None,:,:] + (8 * arange(n))[:,None,None]`
reshaped: voxel-major, 12 consecutive triangles per voxel, indices offset by
`8 * voxel_index`. -/
def globalFaces (n_voxels : ℕ) : List (ℕ × ℕ × ℕ) :=
  (List.range n_voxels).flatMap (fun i =>
    CUBE_FACES.map (fun t => (t.1 + 8 * i, t.2.1 + 8 * i, t.2.2 + 8 * i)))

/-- `voxelize_mesh(mesh, density)` from `src/voxelize.py`, lines 41-118.
`Except.error` stands for the `ValueError` raise. -/
def voxelize_mesh (mesh : Surface) (density : ℚ) : Except String PolyData :=
  if density ≤ 0 then
    .error "density must be positive"
  else
    let x := sampleAxis mesh.xmin mesh.xmax density
    let y := sampleAxis mesh.ymin mesh.ymax density
    let z := sampleAxis mesh.zmin mesh.zmax density
    if x.isEmpty || y.isEmpty || z.isEmpty then
      .ok ⟨[], []⟩
    else
      let grid_points := gridPoints x y z
      let interior := grid_points.filter mesh.encloses
      let n_voxels := interior.length
      if n_voxels = 0 then
        .ok ⟨[], []⟩
      else
        .ok ⟨allPoints interior density, globalFaces n_voxels⟩

/-- Count of interior grid points (`n_voxels` in the source). -/
def interiorCount (mesh : Surface) (density : ℚ) : ℕ :=
  (interiorPoints mesh density).length

lemma gridPoints_nil_of_isEmpty {x y z : List ℚ}
    (h : x.isEmpty || y.isEmpty || z.isEmpty) : gridPoints x y z = [] := by
  simp only [Bool.or_eq_true, List.isEmpty_iff] at h
  rcases h with (h | h) | h <;> subst h <;> simp [gridPoints]

lemma allPoints_nil (density : ℚ) : allPoints [] density = [] := rfl

lemma globalFaces_zero : globalFaces 0 = [] := rfl

/-- Characterization used by the mesh-level claims: for positive density the
call never errors and produces exactly the merged buffers built from the
Interior Point Set. -/
lemma voxelize_mesh_ok (mesh : Surface) (density : ℚ) (hd : 0 < density) :
    voxelize_mesh mesh density =
      .ok ⟨allPoints (interiorPoints mesh density) density,
           globalFaces (interiorCount mesh density)⟩ := by
  unfold voxelize_mesh
  rw [if_neg (not_le.mpr hd)]
  by_cases hxyz : (sampleAxis mesh.xmin mesh.xmax density).isEmpty
      || (sampleAxis mesh.ymin mesh.ymax density).isEmpty
      || (sampleAxis mesh.zmin mesh.zmax density).isEmpty
  · rw [if_pos hxyz]
    have hg : gridPointsOf mesh density = [] := gridPoints_nil_of_isEmpty hxyz
    have hi : interiorPoints mesh density = [] := by
      simp [interiorPoints, hg]
    simp [hi, interiorCount, allPoints_nil, globalFaces_zero]
  · rw [if_neg hxyz]
    by_cases hn : (List.filter mesh.encloses
        (gridPoints (sampleAxis mesh.xmin mesh.xmax density)
          (sampleAxis mesh.ymin mesh.ymax density)
          (sampleAxis mesh.zmin mesh.zmax density))).length = 0
    · rw [if_pos hn]
      have hi : interiorPoints mesh density = [] := by
        simpa [interiorPoints, gridPointsOf, List.length_eq_zero] using hn
      simp [hi, interiorCount, allPoints_nil, globalFaces_zero]
    · rw [if_neg hn]
      rfl

lemma length_flatMap_const {α β : Type*} (l : List α) (g : α → List β) (k : ℕ)
    (hk : ∀ a ∈ l, (g a).length = k) : (l.flatMap g).length = k * l.length := by
  induction l with
  | nil => simp
  | cons a t ih =>
    simp only [List.flatMap_cons, List.length_append, List.length_cons]
    rw [hk a (by simp), ih (fun b hb => hk b (by simp [hb]))]
    ring

lemma flatMap_segment {α β : Type*} (l : List α) (g : α → List β) (k : ℕ)
    (hk : ∀ a ∈ l, (g a).length = k) (i : ℕ) (hi : i < l.length) :
    ((l.flatMap g).drop (k * i)).take k = g (l.get ⟨i, hi⟩) := by
  induction l generalizing i with
  | nil => simp at hi
  | cons a t ih =>
    cases i with
    | zero =>
      simp only [List.flatMap_cons, Nat.mul_zero, List.drop_zero, List.get]
      rw [show k = (g a).length from (hk a (by simp)).symm, List.take_left]
    | succ j =>
      have hlen : (g a).length = k := hk a (by simp)
      have hsplit : k * (j + 1) = (g a).length + k * j := by rw [hlen]; ring
      simp only [List.flatMap_cons]
      rw [hsplit, List.drop_append]
      exact ih (fun b hb => hk b (by simp [hb])) j (by simpa using hi)

lemma flatMap_range_segment {β : Type*} (n : ℕ) (g : ℕ → List β) (k : ℕ)
    (hk : ∀ i, (g i).length = k) (i : ℕ) (hi : i < n) :
    (((List.range n).flatMap g).drop (k * i)).take k = g i := by
  have h := flatMap_segment (List.range n) g k (fun a _ => hk a) i (by simpa using hi)
  simpa using h

lemma templateVerts_length (density : ℚ) : (templateVerts density).length = 8 := by
  simp [templateVerts, CUBE_VERTICES]

lemma allPoints_length (interior : List Vec3) (density : ℚ) :
    (allPoints interior density).length = 8 * interior.length := by
  refine length_flatMap_const _ _ 8 (fun p _ => ?_)
  simp [templateVerts_length]

lemma globalFaces_length (n : ℕ) : (globalFaces n).length = 12 * n := by
  have h := length_flatMap_const (List.range n)
    (fun i => CUBE_FACES.map (fun t => (t.1 + 8 * i, t.2.1 + 8 * i, t.2.2 + 8 * i)))
    12 (fun a _ => by simp [CUBE_FACES])
  simpa [globalFaces] using h

/-- C2: for every input surface and positive density, the returned mesh has
exactly `8 × |Interior Point Set|` vertices and `12 × |Interior Point Set|`
triangles. -/
theorem voxel_mesh_counts (mesh : Surface) (density : ℚ) (hd : 0 < density)
    (out : PolyData) (h : voxelize_mesh mesh density = .ok out) :
    out.points.length = 8 * interiorCount mesh density ∧
    out.faces.length = 12 * interiorCount mesh density := by
  rw [voxelize_mesh_ok mesh density hd] at h
  injection h with h
  subst h
  exact ⟨allPoints_length _ _, globalFaces_length _⟩

lemma arange_eq_of_ceil (start stop step : ℚ) (n : ℕ)
    (h : ⌈(stop - start) / step⌉ = (n : ℤ)) :
    arange start stop step = (List.range n).map (fun i : ℕ => start + (i : ℚ) * step) := by
  unfold arange
  rw [h]
  simp

/-- Test surface: bounding box `[0, 1/4]³`, classifier accepting every point.
Its grid has the single candidate point at the origin. -/
def S0 : Surface := ⟨0, 1/4, 0, 1/4, 0, 1/4, fun _ => true⟩

lemma sampleAxis_S0 : sampleAxis 0 (1/4) 1 = [0] := by
  unfold sampleAxis
  rw [arange_eq_of_ceil _ _ _ 1 (by rw [Int.ceil_eq_iff]; norm_num)]
  norm_num [List.range_succ]

lemma grid_S0 : gridPointsOf S0 1 = [⟨0, 0, 0⟩] := by
  show gridPoints (sampleAxis 0 (1/4) 1) (sampleAxis 0 (1/4) 1) (sampleAxis 0 (1/4) 1) = _
  rw [sampleAxis_S0]
  simp [gridPoints]

lemma interior_S0 : interiorPoints S0 1 = [⟨0, 0, 0⟩] := by
  unfold interiorPoints
  rw [grid_S0]
  rfl

/-- The vertices of the single cube produced for `S0`: `{-1/2, 1/2}³` in
template order. -/
def onePts : List Vec3 :=
  [⟨-(1/2), -(1/2), -(1/2)⟩, ⟨1/2, -(1/2), -(1/2)⟩,
   ⟨1/2, 1/2, -(1/2)⟩, ⟨-(1/2), 1/2, -(1/2)⟩,
   ⟨-(1/2), -(1/2), 1/2⟩, ⟨1/2, -(1/2), 1/2⟩,
   ⟨1/2, 1/2, 1/2⟩, ⟨-(1/2), 1/2, 1/2⟩]

/-- The full output for `S0` at density 1: one cube. -/
def onePoly : PolyData := ⟨onePts, CUBE_FACES⟩

lemma allPoints_one : allPoints [⟨0, 0, 0⟩] 1 = onePts := by
  simp only [allPoints, templateVerts, CUBE_VERTICES, List.flatMap_cons, List.flatMap_nil,
    List.map_cons, List.map_nil, List.append_nil, onePts]
  norm_num [Vec3.mk.injEq]

lemma globalFaces_one : globalFaces 1 = CUBE_FACES := by decide

lemma voxelize_S0 : voxelize_mesh S0 1 = .ok onePoly := by
  rw [voxelize_mesh_ok S0 1 (by norm_num)]
  simp [interiorCount, interior_S0, allPoints_one, globalFaces_one, onePoly]

/-- Witness for C2: the single-cube surface `S0` at density 1 yields 8
vertices and 12 triangles. -/
theorem voxel_mesh_counts_witness :
    (0 : ℚ) < 1 ∧ onePoly.points.length = 8 * interiorCount S0 1 ∧
      onePoly.faces.length = 12 * interiorCount S0 1 :=
  ⟨by norm_num, voxel_mesh_counts S0 1 (by norm_num) onePoly voxelize_S0⟩

lemma cube_faces_lt_eight : ∀ t ∈ CUBE_FACES, t.1 < 8 ∧ t.2.1 < 8 ∧ t.2.2 < 8 := by decide

/-- C1: in the returned mesh, the 12 triangles of voxel `i` are exactly the
template triangles offset by `8 i`; every index is below the vertex count;
and voxel `i`'s triangles reference only the 8 vertices `8 i .. 8 i + 7`
of that voxel. -/
theorem face_index_offsets (mesh : Surface) (density : ℚ) (hd : 0 < density)
    (out : PolyData) (h : voxelize_mesh mesh density = .ok out) :
    (∀ i, i < interiorCount mesh density →
      (out.faces.drop (12 * i)).take 12 =
        CUBE_FACES.map (fun t => (t.1 + 8 * i, t.2.1 + 8 * i, t.2.2 + 8 * i))) ∧
    (∀ t ∈ out.faces,
      t.1 < out.points.length ∧ t.2.1 < out.points.length ∧
        t.2.2 < out.points.length) ∧
    (∀ i, i < interiorCount mesh density →
      ∀ t ∈ (out.faces.drop (12 * i)).take 12,
        8 * i ≤ t.1 ∧ t.1 < 8 * i + 8 ∧
        8 * i ≤ t.2.1 ∧ t.2.1 < 8 * i + 8 ∧
        8 * i ≤ t.2.2 ∧ t.2.2 < 8 * i + 8) := by
  rw [voxelize_mesh_ok mesh density hd] at h
  injection h with h
  subst h
  have hseg : ∀ i, i < interiorCount mesh density →
      ((globalFaces (interiorCount mesh density)).drop (12 * i)).take 12 =
        CUBE_FACES.map (fun t => (t.1 + 8 * i, t.2.1 + 8 * i, t.2.2 + 8 * i)) := by
    intro i hi
    exact flatMap_range_segment _ _ 12 (fun j => by simp [CUBE_FACES]) i hi
  refine ⟨hseg, ?_, ?_⟩
  · intro t ht
    have hlen : ((PolyData.mk (allPoints (interiorPoints mesh density) density)
        (globalFaces (interiorCount mesh density))).points).length =
        8 * interiorCount mesh density := allPoints_length _ _
    rw [hlen]
    obtain ⟨j, hj, ht'⟩ := List.mem_flatMap.mp ht
    obtain ⟨c, hc, rfl⟩ := List.mem_map.mp ht'
    have hj' : j < interiorCount mesh density := List.mem_range.mp hj
    have hcb := cube_faces_lt_eight c hc
    simp only at hcb ⊢
    omega
  · intro i hi t ht
    rw [hseg i hi] at ht
    obtain ⟨c, hc, rfl⟩ := List.mem_map.mp ht
    have hcb := cube_faces_lt_eight c hc
    simp only at hcb ⊢
    omega

/-- Witness for C1 at the single-cube surface `S0`, density 1. -/
theorem face_index_offsets_witness :
    (0 : ℚ) < 1 ∧
    ((∀ i, i < interiorCount S0 1 →
      (onePoly.faces.drop (12 * i)).take 12 =
        CUBE_FACES.map (fun t => (t.1 + 8 * i, t.2.1 + 8 * i, t.2.2 + 8 * i))) ∧
    (∀ t ∈ onePoly.faces,
      t.1 < onePoly.points.length ∧ t.2.1 < onePoly.points.length ∧
        t.2.2 < onePoly.points.length) ∧
    (∀ i, i < interiorCount S0 1 →
      ∀ t ∈ (onePoly.faces.drop (12 * i)).take 12,
        8 * i ≤ t.1 ∧ t.1 < 8 * i + 8 ∧
        8 * i ≤ t.2.1 ∧ t.2.1 < 8 * i + 8 ∧
        8 * i ≤ t.2.2 ∧ t.2.2 < 8 * i + 8)) :=
  ⟨by norm_num, face_index_offsets S0 1 (by norm_num) onePoly voxelize_S0⟩

lemma translated_template (density : ℚ) (p : Vec3) :
    (templateVerts density).map (fun v => ⟨v.x + p.x, v.y + p.y, v.z + p.z⟩) =
      ([⟨p.x - density / 2, p.y - density / 2, p.z - density / 2⟩,
        ⟨p.x + density / 2, p.y - density / 2, p.z - density / 2⟩,
        ⟨p.x + density / 2, p.y + density / 2, p.z - density / 2⟩,
        ⟨p.x - density / 2, p.y + density / 2, p.z - density / 2⟩,
        ⟨p.x - density / 2, p.y - density / 2, p.z + density / 2⟩,
        ⟨p.x + density / 2, p.y - density / 2, p.z + density / 2⟩,
        ⟨p.x + density / 2, p.y + density / 2, p.z + density / 2⟩,
        ⟨p.x - density / 2, p.y + density / 2, p.z + density / 2⟩] : List Vec3) := by
  simp only [templateVerts, CUBE_VERTICES, List.map_cons, List.map_nil, List.cons.injEq,
    Vec3.mk.injEq, and_true]
  norm_num
  refine ⟨?_, ?_, ?_, ?_, ?_, ?_, ?_, ?_⟩ <;> constructor <;> try constructor
  all_goals ring

/-- C3: the 8 vertices appended for interior point `p` are exactly `p + v`
for `v` ranging over the recentered, density-scaled template corners, i.e.
over `{-density/2, +density/2}³`, listed in template order. -/
theorem voxel_vertex_positions (mesh : Surface) (density : ℚ) (hd : 0 < density)
    (out : PolyData) (h : voxelize_mesh mesh density = .ok out) :
    ∀ i (hi : i < interiorCount mesh density) (p : Vec3),
      p = (interiorPoints mesh density).get ⟨i, hi⟩ →
      ((out.points.drop (8 * i)).take 8 =
        [⟨p.x - density / 2, p.y - density / 2, p.z - density / 2⟩,
         ⟨p.x + density / 2, p.y - density / 2, p.z - density / 2⟩,
         ⟨p.x + density / 2, p.y + density / 2, p.z - density / 2⟩,
         ⟨p.x - density / 2, p.y + density / 2, p.z - density / 2⟩,
         ⟨p.x - density / 2, p.y - density / 2, p.z + density / 2⟩,
         ⟨p.x + density / 2, p.y - density / 2, p.z + density / 2⟩,
         ⟨p.x + density / 2, p.y + density / 2, p.z + density / 2⟩,
         ⟨p.x - density / 2, p.y + density / 2, p.z + density / 2⟩]) ∧
      (∀ q, q ∈ (out.points.drop (8 * i)).take 8 ↔
        ((q.x = p.x - density / 2 ∨ q.x = p.x + density / 2) ∧
         (q.y = p.y - density / 2 ∨ q.y = p.y + density / 2) ∧
         (q.z = p.z - density / 2 ∨ q.z = p.z + density / 2))) := by
  rw [voxelize_mesh_ok mesh density hd] at h
  injection h with h
  subst h
  dsimp only
  intro i hi p hp
  have hseg : ((allPoints (interiorPoints mesh density) density).drop (8 * i)).take 8 =
      (templateVerts density).map (fun v => ⟨v.x + p.x, v.y + p.y, v.z + p.z⟩) := by
    have hs := flatMap_segment (interiorPoints mesh density)
      (fun p => (templateVerts density).map fun v =>
        (⟨v.x + p.x, v.y + p.y, v.z + p.z⟩ : Vec3)) 8
      (fun a _ => by simp [templateVerts_length]) i hi
    rw [← hp] at hs
    exact hs
  rw [hseg, translated_template]
  refine ⟨rfl, fun q => ?_⟩
  cases q with
  | mk qx qy qz =>
    simp only [List.mem_cons, List.not_mem_nil, or_false, Vec3.mk.injEq]
    constructor
    · rintro (⟨h1, h2, h3⟩ | ⟨h1, h2, h3⟩ | ⟨h1, h2, h3⟩ | ⟨h1, h2, h3⟩ |
          ⟨h1, h2, h3⟩ | ⟨h1, h2, h3⟩ | ⟨h1, h2, h3⟩ | ⟨h1, h2, h3⟩) <;>
        subst h1 <;> subst h2 <;> subst h3 <;> simp
    · rintro ⟨h1 | h1, h2 | h2, h3 | h3⟩ <;>
        subst h1 <;> subst h2 <;> subst h3 <;> simp

/-- Witness for C3: the single interior point of `S0` at the origin,
density 1, produces the cube with corners `{-1/2, 1/2}³`. -/
theorem voxel_vertex_positions_witness :
    (0 : ℚ) < 1 ∧
    (∀ i (hi : i < interiorCount S0 1) (p : Vec3),
      p = (interiorPoints S0 1).get ⟨i, hi⟩ →
      ((onePoly.points.drop (8 * i)).take 8 =
        [⟨p.x - 1 / 2, p.y - 1 / 2, p.z - 1 / 2⟩,
         ⟨p.x + 1 / 2, p.y - 1 / 2, p.z - 1 / 2⟩,
         ⟨p.x + 1 / 2, p.y + 1 / 2, p.z - 1 / 2⟩,
         ⟨p.x - 1 / 2, p.y + 1 / 2, p.z - 1 / 2⟩,
         ⟨p.x - 1 / 2, p.y - 1 / 2, p.z + 1 / 2⟩,
         ⟨p.x + 1 / 2, p.y - 1 / 2, p.z + 1 / 2⟩,
         ⟨p.x + 1 / 2, p.y + 1 / 2, p.z + 1 / 2⟩,
         ⟨p.x - 1 / 2, p.y + 1 / 2, p.z + 1 / 2⟩]) ∧
      (∀ q, q ∈ (onePoly.points.drop (8 * i)).take 8 ↔
        ((q.x = p.x - 1 / 2 ∨ q.x = p.x + 1 / 2) ∧
         (q.y = p.y - 1 / 2 ∨ q.y = p.y + 1 / 2) ∧
         (q.z = p.z - 1 / 2 ∨ q.z = p.z + 1 / 2)))) :=
  ⟨by norm_num, voxel_vertex_positions S0 1 (by norm_num) onePoly voxelize_S0⟩

/-- Componentwise difference of two points. -/
def vsub (a b : Vec3) : Vec3 := ⟨a.x - b.x, a.y - b.y, a.z - b.z⟩

/-- Cross product, right-hand rule. -/
def cross (a b : Vec3) : Vec3 :=
  ⟨a.y * b.z - a.z * b.y, a.z * b.x - a.x * b.z, a.x * b.y - a.y * b.x⟩

/-- Euclidean inner product. -/
def dot (a b : Vec3) : ℚ := a.x * b.x + a.y * b.y + a.z * b.z

/-- Translation of a template vertex by an interior point, as performed by
the points-buffer construction. -/
def translateBy (p v : Vec3) : Vec3 := ⟨v.x + p.x, v.y + p.y, v.z + p.z⟩

/-- Vertex `i` of the recentered template cube at density 1 (cube center at
the origin). -/
def templateVertex (i : ℕ) : Vec3 := (templateVerts 1).getD i ⟨0, 0, 0⟩

/-- Right-hand normal of a template triangle `(a, b, c)`:
`(v_b - v_a) × (v_c - v_a)`. -/
def triNormal (t : ℕ × ℕ × ℕ) : Vec3 :=
  cross (vsub (templateVertex t.2.1) (templateVertex t.1))
    (vsub (templateVertex t.2.2) (templateVertex t.1))

/-- Centroid of a template triangle. -/
def triCentroid (t : ℕ × ℕ × ℕ) : Vec3 :=
  ⟨((templateVertex t.1).x + (templateVertex t.2.1).x + (templateVertex t.2.2).x) / 3,
   ((templateVertex t.1).y + (templateVertex t.2.1).y + (templateVertex t.2.2).y) / 3,
   ((templateVertex t.1).z + (templateVertex t.2.1).z + (templateVertex t.2.2).z) / 3⟩

/-- Outward-facing under the right-hand rule: the triangle's normal points
away from the cube center (the origin for the recentered template). -/
def isOutward (t : ℕ × ℕ × ℕ) : Prop := 0 < dot (triNormal t) (triCentroid t)

/-- C4: the template winding is NOT consistently outward-facing.  The top
face triangle `(4, 5, 6)` is outward, but the bottom face triangle
`(0, 1, 2)` has its right-hand normal pointing toward the cube center, so
the claimed property fails on the code; translation indeed leaves the
normals unchanged. -/
theorem cube_template_winding_inconsistent :
    (0, 1, 2) ∈ CUBE_FACES ∧ (4, 5, 6) ∈ CUBE_FACES ∧
    isOutward (4, 5, 6) ∧ ¬ isOutward (0, 1, 2) ∧
    ¬ (∀ t ∈ CUBE_FACES, isOutward t) ∧
    (∀ p a b c : Vec3,
      cross (vsub (translateBy p b) (translateBy p a)) (vsub (translateBy p c) (translateBy p a)) =
        cross (vsub b a) (vsub c a)) := by
  have h456 : isOutward (4, 5, 6) := by
    show (0 : ℚ) < _
    norm_num [dot, triNormal, triCentroid, cross, vsub, templateVertex, templateVerts,
      CUBE_VERTICES, List.getD]
  have h012 : ¬ isOutward (0, 1, 2) := by
    show ¬ ((0 : ℚ) < _)
    norm_num [dot, triNormal, triCentroid, cross, vsub, templateVertex, templateVerts,
      CUBE_VERTICES, List.getD]
  refine ⟨by decide, by decide, h456, h012, fun hAll => h012 (hAll (0, 1, 2) (by decide)), ?_⟩
  intro p a b c
  simp only [translateBy, cross, vsub, Vec3.mk.injEq]
  refine ⟨?_, ?_, ?_⟩ <;> ring

lemma sampleAxis_two_fifths : sampleAxis 0 (2 / 5) 1 = [0] := by
  unfold sampleAxis
  rw [arange_eq_of_ceil _ _ _ 1 (by rw [Int.ceil_eq_iff]; norm_num)]
  norm_num [List.range_succ]

/-- C5 counterexample: for the bounding interval `[0, 2/5]` and density 1
the generated axis is `[0]`, whose largest sample 0 is strictly below the
axis maximum `2/5` — the grid does not reach the box maximum. -/
theorem sampleAxis_stops_short_of_max :
    (sampleAxis 0 (2 / 5) 1).getLast? = some 0 ∧ (0 : ℚ) < 2 / 5 :=
  ⟨by rw [sampleAxis_two_fifths]; rfl, by norm_num⟩

/-- C5 (amended): for positive density and positive axis extent, the largest
sample coordinate is at least `max - density / 2` and exceeds `max` by at
most `density` (in fact it stays below `max + density / 2`). -/
theorem sampleAxis_last_bounds (lo hi d : ℚ) (hd : 0 < d) (he : lo < hi) :
    ∃ L, (sampleAxis lo hi d).getLast? = some L ∧ hi - d / 2 ≤ L ∧ L ≤ hi + d := by
  set r : ℚ := (hi + d * (1 / 2) - lo) / d with hr
  have hrpos : 0 < r := div_pos (by linarith) hd
  have hcpos : 0 < ⌈r⌉ := Int.ceil_pos.mpr hrpos
  obtain ⟨m, hm⟩ : ∃ m : ℕ, (⌈r⌉).toNat = m + 1 := ⟨(⌈r⌉).toNat - 1, by omega⟩
  have hceil : ((⌈r⌉ : ℤ) : ℚ) = (m : ℚ) + 1 := by
    have hz : ⌈r⌉ = (m : ℤ) + 1 := by omega
    rw [hz]
    push_cast
    ring
  have hrd : r * d = hi + d * (1 / 2) - lo := by
    rw [hr]
    exact div_mul_cancel₀ _ (ne_of_gt hd)
  refine ⟨lo + (m : ℚ) * d, ?_, ?_, ?_⟩
  · unfold sampleAxis arange
    rw [← hr, hm, List.range_succ, List.map_append]
    simp
  · have h1 : r ≤ (m : ℚ) + 1 := by
      have hle := Int.le_ceil r
      rw [hceil] at hle
      exact hle
    have h2 : (r - 1) * d ≤ (m : ℚ) * d :=
      mul_le_mul_of_nonneg_right (by linarith) (le_of_lt hd)
    have h3 : (r - 1) * d = r * d - d := by ring
    linarith
  · have h1 : (m : ℚ) + 1 < r + 1 := by
      have hlt := Int.ceil_lt_add_one r
      rw [hceil] at hlt
      exact hlt
    have h2 : (m : ℚ) * d ≤ r * d :=
      mul_le_mul_of_nonneg_right (by linarith) (le_of_lt hd)
    linarith

/-- Witness for C5 (amended) at `lo = 0`, `hi = 1/4`, `density = 1`. -/
theorem sampleAxis_last_bounds_witness :
    (0 : ℚ) < 1 ∧ (0 : ℚ) < 1 / 4 ∧
    ∃ L, (sampleAxis 0 (1 / 4) 1).getLast? = some L ∧
      (1 : ℚ) / 4 - 1 / 2 ≤ L ∧ L ≤ 1 / 4 + 1 :=
  ⟨by norm_num, by norm_num, sampleAxis_last_bounds 0 (1 / 4) 1 (by norm_num) (by norm_num)⟩

/-- C10 (amended): for positive density, a non-negative axis extent always
yields a non-empty axis sequence starting at the axis minimum, and an empty
axis sequence (the guard of the early empty-mesh return) occurs only when
the extent is at most `-density / 2`. -/
theorem sampleAxis_empty_characterization (lo hi d : ℚ) (hd : 0 < d) :
    (lo ≤ hi → (sampleAxis lo hi d).head? = some lo) ∧
    (sampleAxis lo hi d = [] → hi - lo ≤ -(d / 2)) := by
  constructor
  · intro hle
    set r : ℚ := (hi + d * (1 / 2) - lo) / d with hr
    have hrpos : 0 < r := div_pos (by linarith) hd
    have hcpos : 0 < ⌈r⌉ := Int.ceil_pos.mpr hrpos
    obtain ⟨m, hm⟩ : ∃ m : ℕ, (⌈r⌉).toNat = m + 1 := ⟨(⌈r⌉).toNat - 1, by omega⟩
    unfold sampleAxis arange
    rw [← hr, hm, List.range_succ_eq_map]
    simp
  · intro hempty
    unfold sampleAxis arange at hempty
    have h0 : (⌈(hi + d * (1 / 2) - lo) / d⌉).toNat = 0 := by
      simpa [List.map_eq_nil_iff, List.range_eq_nil] using hempty
    have h2 : (hi + d * (1 / 2) - lo) / d ≤ 0 := by
      by_contra hpos
      push_neg at hpos
      have := Int.ceil_pos.mpr hpos
      omega
    have h3 : hi + d * (1 / 2) - lo ≤ 0 := by
      by_contra hx
      push_neg at hx
      have := div_pos hx hd
      linarith
    linarith

/-- Witness for C10 (amended) at `lo = 0`, `hi = 1/4`, `density = 1`. -/
theorem sampleAxis_empty_characterization_witness :
    (0 : ℚ) < 1 ∧
    (((0 : ℚ) ≤ 1 / 4 → (sampleAxis 0 (1 / 4) 1).head? = some 0) ∧
     (sampleAxis 0 (1 / 4) 1 = [] → (1 : ℚ) / 4 - 0 ≤ -(1 / 2))) :=
  ⟨by norm_num, sampleAxis_empty_characterization 0 (1 / 4) 1 (by norm_num)⟩

lemma sampleAxis_neg_half_extent : sampleAxis 0 (-(1 / 2)) 1 = [] := by
  unfold sampleAxis arange
  have hc : ⌈((-(1 / 2) : ℚ) + 1 * (1 / 2) - 0) / 1⌉ = (0 : ℤ) := by
    rw [Int.ceil_eq_iff]
    norm_num
  rw [hc]
  simp

/-- C10 counterexample: at axis extent exactly `-density / 2` (here
`lo = 0`, `hi = -1/2`, `density = 1`) the axis sequence is already empty,
although the extent is not strictly less than `-density / 2`. -/
theorem sampleAxis_empty_at_boundary_extent :
    sampleAxis 0 (-(1 / 2)) 1 = [] ∧ ¬ ((-(1 / 2) : ℚ) - 0 < -(1 / 2)) :=
  ⟨sampleAxis_neg_half_extent, by norm_num⟩

/-- C6: the call fails (with the `ValueError` message of the source) exactly
when `density ≤ 0`; for every positive density it returns a result and never
errors, independently of the surface. -/
theorem invalid_density_error (mesh : Surface) (density : ℚ) :
    (density ≤ 0 → voxelize_mesh mesh density = .error "density must be positive") ∧
    (0 < density → ∀ e, voxelize_mesh mesh density ≠ .error e) := by
  constructor
  · intro hle
    unfold voxelize_mesh
    rw [if_pos hle]
  · intro hd e
    rw [voxelize_mesh_ok mesh density hd]
    intro hcontra
    exact Except.noConfusion hcontra

/-- Witness for C6: density `-1` errors, density `1` never errors, on `S0`. -/
theorem invalid_density_error_witness :
    (voxelize_mesh S0 (-1) = .error "density must be positive") ∧
    (∀ e, voxelize_mesh S0 1 ≠ .error e) :=
  ⟨(invalid_density_error S0 (-1)).1 (by norm_num),
   (invalid_density_error S0 1).2 (by norm_num)⟩

/-- C7: when the classifier marks no grid point interior, the result is the
empty mesh (no vertices, no triangles) and no error is raised. -/
theorem empty_interior_empty_mesh (mesh : Surface) (density : ℚ) (hd : 0 < density)
    (hempty : interiorPoints mesh density = []) :
    voxelize_mesh mesh density = .ok ⟨[], []⟩ := by
  have hc : interiorCount mesh density = 0 := by
    rw [interiorCount, hempty]
    rfl
  rw [voxelize_mesh_ok mesh density hd, hempty, hc]
  rfl

/-- Test surface with the bounds of `S0` but a classifier rejecting every
point. -/
def S1 : Surface := ⟨0, 1 / 4, 0, 1 / 4, 0, 1 / 4, fun _ => false⟩

lemma grid_S1 : gridPointsOf S1 1 = [⟨0, 0, 0⟩] := by
  show gridPoints (sampleAxis 0 (1 / 4) 1) (sampleAxis 0 (1 / 4) 1)
      (sampleAxis 0 (1 / 4) 1) = _
  rw [sampleAxis_S0]
  simp [gridPoints]

lemma interior_S1 : interiorPoints S1 1 = [] := by
  unfold interiorPoints
  rw [grid_S1]
  rfl

/-- Witness for C7: a one-point grid whose only candidate is rejected. -/
theorem empty_interior_empty_mesh_witness :
    (0 : ℚ) < 1 ∧ interiorPoints S1 1 = [] ∧
      voxelize_mesh S1 1 = .ok ⟨[], []⟩ :=
  ⟨by norm_num, interior_S1, empty_interior_empty_mesh S1 1 (by norm_num) interior_S1⟩

/-- C8: a surface whose bounding box has zero extent on some axis produces
the empty mesh without error.  The hypothesis on the classifier encodes the
geometric meaning of `select_enclosed_points`: a point enclosed by a surface
lies strictly inside the surface's bounding box, so a zero-volume box
encloses nothing. -/
theorem degenerate_bbox_empty_mesh (mesh : Surface) (density : ℚ) (hd : 0 < density)
    (hdeg : mesh.xmin = mesh.xmax ∨ mesh.ymin = mesh.ymax ∨ mesh.zmin = mesh.zmax)
    (hstrict : ∀ p, mesh.encloses p = true →
      (mesh.xmin < p.x ∧ p.x < mesh.xmax) ∧
      (mesh.ymin < p.y ∧ p.y < mesh.ymax) ∧
      (mesh.zmin < p.z ∧ p.z < mesh.zmax)) :
    voxelize_mesh mesh density = .ok ⟨[], []⟩ := by
  have hfalse : ∀ p, mesh.encloses p = false := by
    intro p
    cases hcl : mesh.encloses p
    · rfl
    · exfalso
      have h := hstrict p hcl
      rcases hdeg with h1 | h1 | h1
      · rw [h1] at h
        exact absurd (lt_trans h.1.1 h.1.2) (lt_irrefl _)
      · rw [h1] at h
        exact absurd (lt_trans h.2.1.1 h.2.1.2) (lt_irrefl _)
      · rw [h1] at h
        exact absurd (lt_trans h.2.2.1 h.2.2.2) (lt_irrefl _)
  have hempty : interiorPoints mesh density = [] := by
    unfold interiorPoints
    rw [List.filter_eq_nil_iff]
    intro a _
    simp [hfalse a]
  have hc : interiorCount mesh density = 0 := by
    rw [interiorCount, hempty]
    rfl
  rw [voxelize_mesh_ok mesh density hd, hempty, hc]
  rfl

/-- Degenerate test surface: zero extent on the x axis. -/
def Sdeg : Surface := ⟨0, 0, 0, 1, 0, 1, fun _ => false⟩

/-- Witness for C8: the x-degenerate surface yields the empty mesh. -/
theorem degenerate_bbox_empty_mesh_witness :
    (0 : ℚ) < 1 ∧ voxelize_mesh Sdeg 1 = .ok ⟨[], []⟩ :=
  ⟨by norm_num, degenerate_bbox_empty_mesh Sdeg 1 (by norm_num) (Or.inl rfl)
    (fun p h => Bool.noConfusion h)⟩

/-- C9: determinism.  The output is a function of the bounding box, the
(extensional) classifier and the density alone: two surfaces with equal
bounds and pointwise-equal classifiers give identical meshes, the grid
being enumerated in the fixed order of `gridPoints` (x outermost, then y,
then z). -/
theorem voxelize_deterministic (m1 m2 : Surface) (density : ℚ)
    (hx1 : m1.xmin = m2.xmin) (hx2 : m1.xmax = m2.xmax)
    (hy1 : m1.ymin = m2.ymin) (hy2 : m1.ymax = m2.ymax)
    (hz1 : m1.zmin = m2.zmin) (hz2 : m1.zmax = m2.zmax)
    (hcl : ∀ p, m1.encloses p = m2.encloses p) :
    voxelize_mesh m1 density = voxelize_mesh m2 density := by
  rcases le_or_lt density 0 with hle | hpos
  · unfold voxelize_mesh
    rw [if_pos hle, if_pos hle]
  · have hgrid : gridPointsOf m1 density = gridPointsOf m2 density := by
      unfold gridPointsOf
      rw [hx1, hx2, hy1, hy2, hz1, hz2]
    have hint : interiorPoints m1 density = interiorPoints m2 density := by
      unfold interiorPoints
      rw [hgrid]
      exact List.filter_congr (fun a _ => hcl a)
    have hcount : interiorCount m1 density = interiorCount m2 density := by
      rw [interiorCount, interiorCount, hint]
    rw [voxelize_mesh_ok m1 density hpos, voxelize_mesh_ok m2 density hpos, hint, hcount]

/-- Surface with the bounds of `S0` and a syntactically different but
extensionally equal classifier. -/
def S0b : Surface := ⟨0, 1 / 4, 0, 1 / 4, 0, 1 / 4, fun _ => !false⟩

/-- Witness for C9: `S0` and `S0b` produce the same mesh. -/
theorem voxelize_deterministic_witness :
    voxelize_mesh S0 1 = voxelize_mesh S0b 1 :=
  voxelize_deterministic S0 S0b 1 rfl rfl rfl rfl rfl rfl (fun _ => rfl)
